import Mathlib

/-!
Shallow embedding of the inventory-api search subsystem
(`src/products/services/search.service.ts` — `SearchService.searchProducts`,
`getSearchSuggestions`, `getSearchFilters` — and
`src/products/dto/product-response.dto.ts` — `ProductResponseDto`).

Conventions of the embedding:
* JS numbers that the code treats as integers (quantities, timestamps,
  counts, page/limit) are `Nat`; prices are `Int` (none of the verified
  properties depend on decimal precision).
* MongoDB `$regex` with option `'i'` on the plain (metacharacter-free)
  strings this service builds is case-insensitive substring containment;
  it is modelled by folding both sides to lower case and testing list
  containment.
* Optional DTO fields are `Option`; JS `undefined` is `none`. JS string
  truthiness (`if (q)`) is `s ≠ ""` on a present string.
* A Mongo aggregation pipeline is a list of reified stages executed over
  a list of documents; `$count` is modelled by taking the length of the
  document list that reaches the count stage, which is the number the
  service reads back from `countResult[0]?.total || 0`.
-/

/-- Case fold of one character to lower case, as in `String.toLowerCase`
restricted to ASCII (sufficient for the ASCII data this service handles). -/
def lowerChar (c : Char) : Char := c.toLower

/-- Case fold of one character to upper case (JS `String.toUpperCase`,
ASCII range). -/
def upperChar (c : Char) : Char := c.toUpper

/-- JS `s.toUpperCase()` over the character list of a string. -/
def strToUpper (s : String) : String := ⟨s.data.map upperChar⟩

/-- JS `s.toLowerCase()` over the character list of a string. -/
def strToLower (s : String) : String := ⟨s.data.map lowerChar⟩

/-- A whitespace character in the sense of JS `String.prototype.trim`
(ASCII range). -/
def isWsChar (c : Char) : Bool :=
  c = ' ' || c = '\t' || c = '\n' || c = '\r'

/-- JS `s.trim()`: strip leading and trailing whitespace. -/
def strTrim (s : String) : String :=
  ⟨((s.data.dropWhile isWsChar).reverse.dropWhile isWsChar).reverse⟩

/-- `pat` occurs as a contiguous sublist of `hay`. -/
def listContainsSub (hay pat : List Char) : Bool :=
  (List.range (hay.length + 1)).any fun i =>
    (hay.drop i).take pat.length == pat

/-- Case-insensitive substring test: the semantics of the service's
`{ $regex: pat, $options: 'i' }` on metacharacter-free patterns, and of
JS `hay.toLowerCase().includes(pat.toLowerCase())`. -/
def ciContains (hay pat : String) : Bool :=
  listContainsSub (hay.data.map lowerChar) (pat.data.map lowerChar)

/-- A value stored in a product's open-ended `specifications` map
(string-keyed map of scalar values). -/
inductive SpecValue where
  | str (s : String)
  | num (n : Int)
  | boolVal (b : Bool)
deriving DecidableEq, Repr

/-- Mongo `$toString` applied to a specification value. -/
def SpecValue.toStr : SpecValue → String
  | .str s => s
  | .num n => toString n
  | .boolVal b => if b then "true" else "false"

/-- A stored product document (`src/products/schemas/product.schema.ts`). -/
structure Product where
  id : String
  name : String
  description : String
  price : Int
  sku : String
  quantity : Nat
  lowStockThreshold : Nat
  categoryId : String
  brand : Option String
  tags : List String
  images : List String
  specifications : List (String × SpecValue)
  isActive : Bool
  isFeatured : Bool
  createdAt : Nat
  updatedAt : Nat
deriving DecidableEq, Repr

/-- A stored category document (`src/categories/schemas/category.schema.ts`). -/
structure Category where
  id : String
  name : String
  description : String
  slug : String
  isActive : Bool
  createdAt : Nat
  updatedAt : Nat
deriving DecidableEq, Repr

/-- The flat search parameter object (`SearchProductsDto`); every field is
optional, `none` standing for JS `undefined`. -/
structure SearchProductsDto where
  page : Option Nat := none
  limit : Option Nat := none
  sort : Option String := none
  order : Option String := none
  q : Option String := none
  name : Option String := none
  description : Option String := none
  brand : Option String := none
  categoryId : Option String := none
  minPrice : Option Int := none
  maxPrice : Option Int := none
  minQuantity : Option Nat := none
  maxQuantity : Option Nat := none
  tags : Option (List String) := none
  isActive : Option Bool := none
  isFeatured : Option Bool := none
  isLowStock : Option Bool := none
  sku : Option String := none
  specifications : Option String := none
  sortBy : Option String := none
deriving DecidableEq, Repr

/-- One alternative of the `$or` group the service assembles for the
general-text query and the specifications search. -/
inductive OrClause where
  | nameRe (pat : String)
  | descRe (pat : String)
  | brandRe (pat : String)
  | skuRe (pat : String)
  | tagRe (pat : String)
  | specMatch (pat : String)
deriving DecidableEq, Repr

/-- The reified `searchQuery` object built by `searchProducts`
(lines 694–799 of the service): one field per Mongo key the code may set. -/
structure SearchQuery where
  isActive : Option Bool := none
  orGroup : Option (List OrClause) := none
  name : Option String := none
  description : Option String := none
  brand : Option String := none
  sku : Option String := none
  categoryId : Option String := none
  minPrice : Option Int := none
  maxPrice : Option Int := none
  minQuantity : Option Nat := none
  maxQuantity : Option Nat := none
  tagPatterns : Option (List String) := none
  isFeatured : Option Bool := none
  lowStockExpr : Option Bool := none
deriving DecidableEq, Repr

/-- JS truthiness of an optional string parameter (`if (q) ...`). -/
def optTruthy : Option String → Option String
  | some s => if s = "" then none else some s
  | none => none

/-- Translation of the `searchQuery` construction in `searchProducts`:
each conditional assignment of the source becomes one field. -/
def buildSearchQuery (dto : SearchProductsDto) : SearchQuery :=
  { isActive := some (dto.isActive.getD true)
    orGroup :=
      let fromQ : Option (List OrClause) :=
        match optTruthy dto.q with
        | some s => some [.nameRe s, .descRe s, .brandRe s, .skuRe s, .tagRe s]
        | none => none
      match optTruthy dto.specifications with
      | some sp => some ((fromQ.getD []) ++ [.specMatch sp])
      | none => fromQ
    name := optTruthy dto.name
    description := optTruthy dto.description
    brand := optTruthy dto.brand
    sku := (optTruthy dto.sku).map strToUpper
    categoryId := optTruthy dto.categoryId
    minPrice := dto.minPrice
    maxPrice := dto.maxPrice
    minQuantity := dto.minQuantity
    maxQuantity := dto.maxQuantity
    tagPatterns :=
      match dto.tags with
      | some ts => if 0 < ts.length then some ts else none
      | none => none
    isFeatured := dto.isFeatured
    lowStockExpr := dto.isLowStock }

/-- Mongo evaluation of one `$or` alternative against a product document. -/
def matchesClause : OrClause → Product → Bool
  | .nameRe pat, p => ciContains p.name pat
  | .descRe pat, p => ciContains p.description pat
  | .brandRe pat, p =>
      match p.brand with
      | some b => ciContains b pat
      | none => false
  | .skuRe pat, p => ciContains p.sku pat
  | .tagRe pat, p => p.tags.any fun t => ciContains t pat
  | .specMatch pat, p =>
      decide (0 < (p.specifications.filter fun kv => ciContains kv.2.toStr pat).length)

/-- Mongo evaluation of the reified `searchQuery` against a product
document: conjunction over the present fields, disjunction inside `$or`. -/
def matchesQuery (sq : SearchQuery) (p : Product) : Bool :=
  (match sq.isActive with | none => true | some b => p.isActive == b) &&
  (match sq.orGroup with | none => true | some cls => cls.any (matchesClause · p)) &&
  (match sq.name with | none => true | some pat => ciContains p.name pat) &&
  (match sq.description with | none => true | some pat => ciContains p.description pat) &&
  (match sq.brand with
   | none => true
   | some pat => match p.brand with | some b => ciContains b pat | none => false) &&
  (match sq.sku with | none => true | some pat => ciContains p.sku pat) &&
  (match sq.categoryId with | none => true | some cid => p.categoryId == cid) &&
  (match sq.minPrice with | none => true | some m => decide (m ≤ p.price)) &&
  (match sq.maxPrice with | none => true | some m => decide (p.price ≤ m)) &&
  (match sq.minQuantity with | none => true | some m => decide (m ≤ p.quantity)) &&
  (match sq.maxQuantity with | none => true | some m => decide (p.quantity ≤ m)) &&
  (match sq.tagPatterns with
   | none => true
   | some pats => p.tags.any fun t => pats.any fun pat => ciContains t pat) &&
  (match sq.isFeatured with | none => true | some b => p.isFeatured == b) &&
  (match sq.lowStockExpr with
   | none => true
   | some true => decide (p.quantity ≤ p.lowStockThreshold)
   | some false => decide (p.lowStockThreshold < p.quantity))

example :
    matchesQuery (buildSearchQuery { q := some "mac" })
      { id := "1", name := "MacBook", description := "laptop computer",
        price := 2499, sku := "MBP16", quantity := 25, lowStockThreshold := 5,
        categoryId := "c1", brand := some "Apple", tags := [], images := [],
        specifications := [], isActive := true, isFeatured := false,
        createdAt := 0, updatedAt := 0 } = true := by decide

/-- Sort direction (Mongo `1` / `-1`). -/
inductive SortDir where
  | asc
  | desc
deriving DecidableEq, Repr

/-- One entry of the `sortObj` record built by `searchProducts`:
either the `score: { $meta: 'textScore' }` entry of the relevance branch
or a plain field/direction pair. -/
inductive SortEntry where
  | textScore
  | field (name : String) (dir : SortDir)
deriving DecidableEq, Repr

/-- `order === 'asc' ? 1 : -1`. -/
def dirOf (order : String) : SortDir :=
  if order = "asc" then .asc else .desc

/-- `const sortField = sortBy || sort` with the destructuring default
`sort = 'relevance'`; JS `||` treats the empty string as falsy. -/
def resolveSortField (dto : SearchProductsDto) : String :=
  let sort := dto.sort.getD "relevance"
  match dto.sortBy with
  | some s => if s = "" then sort else s
  | none => sort

/-- The `switch (sortField)` of `searchProducts` building `sortObj`. -/
def buildSortObj (sortField : String) (order : String) (hasQ : Bool) :
    List SortEntry :=
  if sortField = "relevance" then
    if hasQ then
      [.textScore, .field "isFeatured" .desc, .field "createdAt" .desc]
    else
      [.field "isFeatured" .desc, .field "createdAt" .desc]
  else if sortField = "price" then [.field "price" (dirOf order)]
  else if sortField = "name" then [.field "name" (dirOf order)]
  else if sortField = "createdAt" then [.field "createdAt" (dirOf order)]
  else if sortField = "quantity" then [.field "quantity" (dirOf order)]
  else [.field "createdAt" (dirOf order)]

/-- A reified aggregation stage of the pipelines `searchProducts` issues. -/
inductive Stage where
  | matchStage (sq : SearchQuery)
  | lookupCategory
  | addFieldsStage
  | sortStage (entries : List SortEntry)
  | countStage
  | skipStage (n : Nat)
  | limitStage (n : Nat)
deriving DecidableEq, Repr

/-- JS string truthiness of the optional `q` parameter. -/
def hasTextQuery (dto : SearchProductsDto) : Bool :=
  match dto.q with
  | some s => !(s = "")
  | none => false

/-- The `aggregationPipeline` array after the conditional
`if (sortField !== 'relevance' || !q) push({ $sort: sortObj })`:
match, category lookup, derived-field stage, and possibly the sort stage. -/
def basePipeline (dto : SearchProductsDto) : List Stage :=
  let sortField := resolveSortField dto
  let order := dto.order.getD "desc"
  let hasQ := hasTextQuery dto
  let sortObj := buildSortObj sortField order hasQ
  [Stage.matchStage (buildSearchQuery dto), Stage.lookupCategory,
    Stage.addFieldsStage] ++
    (if sortField ≠ "relevance" || !hasQ then [Stage.sortStage sortObj] else [])

/-- `const countPipeline = [...aggregationPipeline, { $count: 'total' }]`. -/
def countPipeline (dto : SearchProductsDto) : List Stage :=
  basePipeline dto ++ [Stage.countStage]

/-- `aggregationPipeline.push({ $skip: skip }, { $limit: limit })` with
`skip = (page - 1) * limit` and the destructuring defaults
`page = 1`, `limit = 10`. -/
def dataPipeline (dto : SearchProductsDto) : List Stage :=
  let page := dto.page.getD 1
  let limit := dto.limit.getD 10
  basePipeline dto ++ [Stage.skipStage ((page - 1) * limit), Stage.limitStage limit]

/-- A document flowing through the aggregation: the product record plus
the fields the `$lookup` and `$addFields` stages attach. -/
structure AggDoc where
  prod : Product
  categoryArr : List Category := []
  category : Option Category := none
  isLowStockF : Option Bool := none
deriving DecidableEq, Repr

/-- Initial documents of the products collection. -/
def initDocs (ds : List Product) : List AggDoc :=
  ds.map fun p => { prod := p }

/-- Comparison of two documents on one named sort field, in the given
direction (fields the service never sorts on compare equal). -/
def cmpField (fieldName : String) (dir : SortDir) (a b : AggDoc) : Ordering :=
  let o : Ordering :=
    if fieldName = "price" then compare a.prod.price b.prod.price
    else if fieldName = "name" then compare a.prod.name b.prod.name
    else if fieldName = "createdAt" then compare a.prod.createdAt b.prod.createdAt
    else if fieldName = "quantity" then compare a.prod.quantity b.prod.quantity
    else if fieldName = "isFeatured" then
      compare (cond a.prod.isFeatured 1 0) (cond b.prod.isFeatured 1 0)
    else Ordering.eq
  match dir with
  | .asc => o
  | .desc => o.swap

/-- Lexicographic comparison along a sort specification; the `textScore`
entry never reaches an executed `$sort` stage and compares equal. -/
def cmpEntries : List SortEntry → AggDoc → AggDoc → Ordering
  | [], _, _ => .eq
  | .textScore :: rest, a, b => cmpEntries rest a b
  | .field n d :: rest, a, b =>
      match cmpField n d a b with
      | .eq => cmpEntries rest a b
      | o => o

/-- Stable insertion into a list sorted by `le`. -/
def insertSorted (le : α → α → Bool) (x : α) : List α → List α
  | [] => [x]
  | y :: ys => if le x y then x :: y :: ys else y :: insertSorted le x ys

/-- Stable insertion sort by `le`. -/
def sortByLe (le : α → α → Bool) (l : List α) : List α :=
  l.foldr (insertSorted le) []

/-- Execution of one aggregation stage over the current documents, given
the categories collection for `$lookup`; `$count` is interpreted by
`runStages`' caller taking the length, so it leaves the documents as they
are. -/
def applyStage (cats : List Category) (docs : List AggDoc) : Stage → List AggDoc
  | .matchStage sq => docs.filter fun d => matchesQuery sq d.prod
  | .lookupCategory =>
      docs.map fun d =>
        { d with categoryArr := cats.filter fun c => c.id == d.prod.categoryId }
  | .addFieldsStage =>
      docs.map fun d =>
        { d with
          category :=
            if 0 < d.categoryArr.length then d.categoryArr.head? else none
          isLowStockF := some (decide (d.prod.quantity ≤ d.prod.lowStockThreshold)) }
  | .sortStage entries =>
      sortByLe (fun a b => (cmpEntries entries a b).isLE) docs
  | .countStage => docs
  | .skipStage n => docs.drop n
  | .limitStage n => docs.take n

/-- Execution of a whole pipeline. -/
def runStages (cats : List Category) (docs : List AggDoc) :
    List Stage → List AggDoc
  | [] => docs
  | s :: rest => runStages cats (applyStage cats docs s) rest

/-- The raw record handed to the `ProductResponseDto` constructor (typed
`any` in the source): the product fields plus whatever `isLowStock` value
the aggregation or a stored document may already carry. -/
structure ProductRecord where
  id : String
  name : String
  description : String
  price : Int
  sku : String
  quantity : Nat
  lowStockThreshold : Nat
  categoryId : String
  brand : Option String
  tags : List String
  images : List String
  specifications : List (String × SpecValue)
  isActive : Bool
  isFeatured : Bool
  isLowStock : Option Bool := none
  createdAt : Nat
  updatedAt : Nat
deriving DecidableEq, Repr

/-- The public category shape (`CategoryResponseDto`). -/
structure CategoryResponseDto where
  id : String
  name : String
  description : String
  slug : String
  isActive : Bool
  createdAt : Nat
  updatedAt : Nat
deriving DecidableEq, Repr

/-- The `CategoryResponseDto` constructor. -/
def CategoryResponseDto.ofRecord (category : Category) : CategoryResponseDto :=
  { id := category.id, name := category.name,
    description := category.description, slug := category.slug,
    isActive := category.isActive, createdAt := category.createdAt,
    updatedAt := category.updatedAt }

/-- The public product shape (`ProductResponseDto`). -/
structure ProductResponseDto where
  id : String
  name : String
  description : String
  price : Int
  sku : String
  quantity : Nat
  lowStockThreshold : Nat
  categoryId : String
  category : Option CategoryResponseDto
  brand : Option String
  tags : List String
  images : List String
  specifications : List (String × SpecValue)
  isActive : Bool
  isFeatured : Bool
  isLowStock : Bool
  createdAt : Nat
  updatedAt : Nat
deriving DecidableEq, Repr

/-- The `ProductResponseDto` constructor
(`src/products/dto/product-response.dto.ts`): every field copied from the
record except `isLowStock`, which is recomputed as
`product.quantity <= product.lowStockThreshold` (line 38), and the
category, embedded only when provided. -/
def ProductResponseDto.ofRecord (product : ProductRecord)
    (category : Option Category) : ProductResponseDto :=
  { id := product.id
    name := product.name
    description := product.description
    price := product.price
    sku := product.sku
    quantity := product.quantity
    lowStockThreshold := product.lowStockThreshold
    categoryId := product.categoryId
    category := category.map CategoryResponseDto.ofRecord
    brand := product.brand
    tags := product.tags
    images := product.images
    specifications := product.specifications
    isActive := product.isActive
    isFeatured := product.isFeatured
    isLowStock := decide (product.quantity ≤ product.lowStockThreshold)
    createdAt := product.createdAt
    updatedAt := product.updatedAt }

/-- View of an aggregation output document as the raw record passed to the
`ProductResponseDto` constructor, carrying the `isLowStock` value the
`$addFields` stage attached. -/
def AggDoc.toRecord (d : AggDoc) : ProductRecord :=
  { id := d.prod.id, name := d.prod.name, description := d.prod.description,
    price := d.prod.price, sku := d.prod.sku, quantity := d.prod.quantity,
    lowStockThreshold := d.prod.lowStockThreshold,
    categoryId := d.prod.categoryId, brand := d.prod.brand,
    tags := d.prod.tags, images := d.prod.images,
    specifications := d.prod.specifications, isActive := d.prod.isActive,
    isFeatured := d.prod.isFeatured, isLowStock := d.isLowStockF,
    createdAt := d.prod.createdAt, updatedAt := d.prod.updatedAt }

/-- `Math.ceil(total / limit)` for natural `total` and `limit`. -/
def ceilDiv (total limit : Nat) : Nat := (total + limit - 1) / limit

/-- Pagination metadata of a search response. -/
structure Pagination where
  page : Nat
  limit : Nat
  total : Nat
  totalPages : Nat
  hasNext : Bool
  hasPrev : Bool
deriving DecidableEq, Repr

/-- A page of mapped products plus pagination metadata. -/
structure PaginatedResult where
  data : List ProductResponseDto
  pagination : Pagination
deriving DecidableEq, Repr

/-- `SearchService.searchProducts` over an explicit products collection
`ds` and categories collection `cats`: build the shared pipeline, run it
once with `$count` appended for `total`, once with `$skip`/`$limit`
appended for the page, then assemble responses and metadata. -/
def searchProducts (ds : List Product) (cats : List Category)
    (dto : SearchProductsDto) : PaginatedResult :=
  let page := dto.page.getD 1
  let limit := dto.limit.getD 10
  let total := (runStages cats (initDocs ds) (countPipeline dto)).length
  let products := runStages cats (initDocs ds) (dataPipeline dto)
  let totalPages := ceilDiv total limit
  { data := products.map fun d => ProductResponseDto.ofRecord d.toRecord d.category
    pagination :=
      { page := page, limit := limit, total := total, totalPages := totalPages
        hasNext := decide (page < totalPages)
        hasPrev := decide (1 < page) } }

/-- Insertion into the suggestion `Set` in first-seen order: JS `Set.add`
keeps the first occurrence and iteration follows insertion order. -/
def addToSet (acc : List String) (s : String) : List String :=
  if acc.contains s then acc else acc ++ [s]

/-- `SearchService.getSearchSuggestions` over an explicit products
collection: three bounded lookups (name, brand, tag) over active records,
merged through one insertion-ordered set and cut to `limit`. -/
def getSearchSuggestions (ds : List Product) (query : String)
    (limit : Nat := 10) : List String :=
  if (strTrim query).length < 2 then []
  else
    let nameMatches :=
      (ds.filter fun p => ciContains p.name query && p.isActive).take limit
    let s1 := nameMatches.foldl (fun acc p => addToSet acc p.name) []
    let brandMatches :=
      (ds.filter fun p =>
        (match p.brand with | some b => ciContains b query | none => false)
          && p.isActive).take limit
    let s2 := brandMatches.foldl
      (fun acc p =>
        match p.brand with
        | some b => if b = "" then acc else addToSet acc b
        | none => acc)
      s1
    let tagMatches :=
      (ds.filter fun p =>
        (p.tags.any fun t => ciContains t query) && p.isActive).take limit
    let s3 := tagMatches.foldl
      (fun acc p =>
        p.tags.foldl
          (fun a t => if ciContains t query then addToSet a t else a) acc)
      s2
    s3.take limit

/-- Lexicographic string sort (JS `Array.prototype.sort()` on strings),
as a stable insertion sort. -/
def sortStrings (l : List String) : List String :=
  sortByLe (fun a b => (compare a b).isLE) l

/-- First-seen-order deduplication (Mongo `distinct` / `$group` both keep
one entry per distinct value; insertion order is kept for determinism). -/
def distinctStrings : List String → List String
  | [] => []
  | x :: xs => x :: distinctStrings (xs.filter fun y => y != x)
termination_by l => l.length
decreasing_by
  simpa using Nat.lt_succ_of_le (List.length_filter_le _ xs)

/-- The result shape of `getSearchFilters`. -/
structure SearchFilters where
  brands : List String
  categories : List (String × String)
  priceMin : Int
  priceMax : Int
  tags : List String
deriving DecidableEq, Repr

/-- `SearchService.getSearchFilters` over explicit collections: distinct
non-empty brands (sorted), active categories as id/name pairs, the
`$group` min/max of prices over active products — an empty group result
falling back to `{ minPrice: 0, maxPrice: 0 }` — and the sorted distinct
tag vocabulary. -/
def getSearchFilters (ds : List Product) (cats : List Category) :
    SearchFilters :=
  let activeP := ds.filter fun p => p.isActive
  let brands := distinctStrings (activeP.filterMap fun p =>
    match p.brand with
    | some b => if b = "" then none else some b
    | none => none)
  let categories := (cats.filter fun c => c.isActive).map fun c => (c.id, c.name)
  let priceStats : Option (Int × Int) :=
    match activeP.map fun p => p.price with
    | [] => none
    | x :: xs => some (xs.foldl min x, xs.foldl max x)
  let priceRange := priceStats.getD (0, 0)
  let tags := distinctStrings (activeP.flatMap fun p => p.tags)
  { brands := sortStrings brands
    categories := categories
    priceMin := priceRange.1
    priceMax := priceRange.2
    tags := sortStrings tags }

/-- `Math.ceil(t / l)` as floor division plus a carry when `l` does not
divide `t`. -/
theorem ceilDiv_eq (t l : Nat) (hl : 1 ≤ l) :
    ceilDiv t l = t / l + (if t % l = 0 then 0 else 1) := by
  have hl0 : 0 < l := hl
  have hmod := Nat.mod_lt t hl0
  have hdm := Nat.div_add_mod t l
  by_cases h : t % l = 0
  · have ht : t + l - 1 = l * (t / l) + (l - 1) := by omega
    rw [ceilDiv, ht, Nat.mul_add_div hl0,
      Nat.div_eq_of_lt (show l - 1 < l by omega), h]
    simp
  · have ht : t + l - 1 = l * (t / l + 1) + (t % l - 1) := by
      have hx : l * (t / l + 1) = l * (t / l) + l := by ring
      omega
    rw [ceilDiv, ht, Nat.mul_add_div hl0,
      Nat.div_eq_of_lt (show t % l - 1 < l by omega), if_neg h]

/-- A sample product used to instantiate theorems with hypotheses. -/
def prodWidget : Product :=
  { id := "1", name := "Widget", description := "a widget thing",
    price := 10, sku := "W1", quantity := 3, lowStockThreshold := 5,
    categoryId := "c1", brand := some "Acme", tags := ["gadget"],
    images := [], specifications := [("color", SpecValue.str "black")],
    isActive := true, isFeatured := false, createdAt := 1, updatedAt := 1 }

/-- A second sample product, identical to `prodWidget` up to case of the
name and a larger stock. -/
def prodLowerWidget : Product :=
  { prodWidget with id := "2", name := "widget", sku := "W2", quantity := 9 }

/-- C1: for every search input with `page ≥ 1` and `limit ≥ 1`,
`searchProducts` appends `skip = (page-1)*limit` to the data pipeline,
reports `totalPages = ceil(total/limit)`, and sets
`hasNext ⇔ page < totalPages` and `hasPrev ⇔ page > 1` in the returned
pagination metadata, echoing `page` and `limit`. -/
theorem searchProducts_pagination_spec
    (ds : List Product) (cats : List Category) (dto : SearchProductsDto)
    (p l : Nat) (hp : dto.page = some p) (hl : dto.limit = some l)
    (_hp1 : 1 ≤ p) (hl1 : 1 ≤ l) :
    dataPipeline dto = basePipeline dto ++
        [Stage.skipStage ((p - 1) * l), Stage.limitStage l] ∧
    (searchProducts ds cats dto).pagination.page = p ∧
    (searchProducts ds cats dto).pagination.limit = l ∧
    (searchProducts ds cats dto).pagination.totalPages =
      (searchProducts ds cats dto).pagination.total / l +
        (if (searchProducts ds cats dto).pagination.total % l = 0 then 0 else 1) ∧
    ((searchProducts ds cats dto).pagination.hasNext = true ↔
      p < (searchProducts ds cats dto).pagination.totalPages) ∧
    ((searchProducts ds cats dto).pagination.hasPrev = true ↔ 1 < p) := by
  refine ⟨?_, ?_, ?_, ?_, ?_, ?_⟩
  · simp [dataPipeline, hp, hl]
  · simp [searchProducts, hp]
  · simp [searchProducts, hl]
  · simp only [searchProducts, hp, hl, Option.getD_some]
    exact ceilDiv_eq _ _ hl1
  · simp [searchProducts, hp, hl]
  · simp [searchProducts, hp]

/-- Closed instance of `searchProducts_pagination_spec`: page 2, limit 1
over a two-product collection (the spec's scenario 4). -/
theorem searchProducts_pagination_spec_witness :
    dataPipeline { page := some 2, limit := some 1 } =
      basePipeline { page := some 2, limit := some 1 } ++
        [Stage.skipStage ((2 - 1) * 1), Stage.limitStage 1] ∧
    (searchProducts [prodWidget, prodLowerWidget] []
        { page := some 2, limit := some 1 }).pagination.page = 2 ∧
    (searchProducts [prodWidget, prodLowerWidget] []
        { page := some 2, limit := some 1 }).pagination.limit = 1 ∧
    (searchProducts [prodWidget, prodLowerWidget] []
        { page := some 2, limit := some 1 }).pagination.totalPages =
      (searchProducts [prodWidget, prodLowerWidget] []
          { page := some 2, limit := some 1 }).pagination.total / 1 +
        (if (searchProducts [prodWidget, prodLowerWidget] []
            { page := some 2, limit := some 1 }).pagination.total % 1 = 0
          then 0 else 1) ∧
    ((searchProducts [prodWidget, prodLowerWidget] []
        { page := some 2, limit := some 1 }).pagination.hasNext = true ↔
      2 < (searchProducts [prodWidget, prodLowerWidget] []
          { page := some 2, limit := some 1 }).pagination.totalPages) ∧
    ((searchProducts [prodWidget, prodLowerWidget] []
        { page := some 2, limit := some 1 }).pagination.hasPrev = true ↔
      1 < 2) :=
  searchProducts_pagination_spec [prodWidget, prodLowerWidget] []
    { page := some 2, limit := some 1 } 2 1 rfl rfl (by decide) (by decide)

/-- C2: the response assembler always recomputes `isLowStock` as
`quantity <= lowStockThreshold` from the record it maps, and the response
does not depend on any `isLowStock` value already present on that
record. -/
theorem productResponse_isLowStock_recomputed
    (product : ProductRecord) (category : Option Category) (v : Option Bool) :
    (ProductResponseDto.ofRecord product category).isLowStock
        = decide (product.quantity ≤ product.lowStockThreshold) ∧
    ProductResponseDto.ofRecord { product with isLowStock := v } category
        = ProductResponseDto.ofRecord product category :=
  ⟨rfl, rfl⟩

/-- C9: over an empty active-product set, `getSearchFilters` returns a
result whose price range is `min = 0`, `max = 0`. -/
theorem getSearchFilters_empty_prices
    (ds : List Product) (cats : List Category)
    (h : ds.filter (fun p => p.isActive) = []) :
    (getSearchFilters ds cats).priceMin = 0 ∧
    (getSearchFilters ds cats).priceMax = 0 := by
  constructor <;> simp [getSearchFilters, h]

/-- Closed instance of `getSearchFilters_empty_prices`: a collection whose
only product is inactive. -/
theorem getSearchFilters_empty_prices_witness :
    (getSearchFilters [{ prodWidget with isActive := false }] []).priceMin = 0 ∧
    (getSearchFilters [{ prodWidget with isActive := false }] []).priceMax = 0 :=
  getSearchFilters_empty_prices [{ prodWidget with isActive := false }] []
    (by decide)

/-- The extra conjunct the `isLowStock` parameter contributes to the
predicate: `quantity ≤ lowStockThreshold` when true,
`quantity > lowStockThreshold` when explicitly false, nothing when
absent. -/
def lowStockCond : Option Bool → Product → Bool
  | none, _ => true
  | some true, p => decide (p.quantity ≤ p.lowStockThreshold)
  | some false, p => decide (p.lowStockThreshold < p.quantity)

/-- Splitting the `$expr` conjunct off the evaluation of a search query. -/
theorem matchesQuery_split_lowStock (sq : SearchQuery) (p : Product) :
    matchesQuery sq p =
      (matchesQuery { sq with lowStockExpr := none } p &&
        lowStockCond sq.lowStockExpr p) := by
  rcases sq with ⟨a, o, n, d, b, sk, c, mp, xp, mq, xq, tp, f, ls⟩
  rcases ls with _ | b' <;> [skip; rcases b' with _ | _] <;>
    simp [matchesQuery, lowStockCond, Bool.and_assoc]

/-- C7: the low-stock dimension of the built predicate is three-valued —
`isLowStock = true` restricts to `quantity ≤ lowStockThreshold`,
`isLowStock = false` restricts to `quantity > lowStockThreshold`, and an
absent `isLowStock` adds no constraint (the predicate coincides with the
one built from the same input without the parameter). -/
theorem lowStock_filter_three_valued (dto : SearchProductsDto) (p : Product) :
    matchesQuery (buildSearchQuery dto) p =
      (matchesQuery (buildSearchQuery { dto with isLowStock := none }) p &&
        lowStockCond dto.isLowStock p) := by
  have h : buildSearchQuery { dto with isLowStock := none } =
      { buildSearchQuery dto with lowStockExpr := none } := rfl
  rw [h]
  exact matchesQuery_split_lowStock (buildSearchQuery dto) p

/-- C5: with `specifications` present, the specifications test is pushed
into the same `$or` group as the five general-text alternatives (not added
as an independent conjunct); hence with `q` also present, a product that
passes the specifications test satisfies the text dimension of the
predicate even when it satisfies none of the `q` alternatives. -/
theorem specifications_or_group_spec
    (dto : SearchProductsDto) (qs sp : String) (p : Product)
    (hq : dto.q = some qs) (hq0 : qs ≠ "")
    (hs : dto.specifications = some sp) (hs0 : sp ≠ "") :
    (buildSearchQuery dto).orGroup =
      some [OrClause.nameRe qs, OrClause.descRe qs, OrClause.brandRe qs,
        OrClause.skuRe qs, OrClause.tagRe qs, OrClause.specMatch sp] ∧
    (matchesClause (OrClause.specMatch sp) p = true →
      ((buildSearchQuery dto).orGroup.getD []).any (fun c => matchesClause c p)
        = true) := by
  have hgroup : (buildSearchQuery dto).orGroup =
      some [OrClause.nameRe qs, OrClause.descRe qs, OrClause.brandRe qs,
        OrClause.skuRe qs, OrClause.tagRe qs, OrClause.specMatch sp] := by
    simp [buildSearchQuery, optTruthy, hq, hs, hq0, hs0]
  refine ⟨hgroup, fun hspec => ?_⟩
  rw [hgroup]
  simp only [Option.getD_some, List.any_eq_true]
  exact ⟨OrClause.specMatch sp, by simp, hspec⟩

/-- Closed instance of `specifications_or_group_spec`: a query string that
matches nothing else, a specifications string matching the sample
product's `color` value. -/
theorem specifications_or_group_spec_witness :
    (buildSearchQuery { q := some "zzz", specifications := some "black" }).orGroup =
      some [OrClause.nameRe "zzz", OrClause.descRe "zzz", OrClause.brandRe "zzz",
        OrClause.skuRe "zzz", OrClause.tagRe "zzz", OrClause.specMatch "black"] ∧
    (matchesClause (OrClause.specMatch "black") prodWidget = true →
      ((buildSearchQuery { q := some "zzz", specifications := some "black" }).orGroup.getD
          []).any (fun c => matchesClause c prodWidget) = true) :=
  specifications_or_group_spec { q := some "zzz", specifications := some "black" }
    "zzz" "black" prodWidget rfl (by decide) rfl (by decide)

/-- C3 counterexample: with the default sort field `relevance` and the
text query `"test"` present, the pipeline built by `searchProducts`
contains no sort stage at all — in particular not the claimed
text-score / featured / recency chain. -/
theorem relevance_query_sort_counterexample :
    ¬ (Stage.sortStage [SortEntry.textScore,
        SortEntry.field "isFeatured" SortDir.desc,
        SortEntry.field "createdAt" SortDir.desc] ∈
      dataPipeline { q := some "test" }) := by decide

/-- C3 amended: when the resolved sort field is `relevance` and a general
text query is present, `searchProducts` pushes no sort stage whatsoever
(the guard `sortField !== 'relevance' || !q` skips it), so the result
order is left to the storage engine; the pipeline is identical for every
requested `order` value. -/
theorem relevance_query_no_sort_stage
    (dto : SearchProductsDto) (entries : List SortEntry) (o o' : Option String)
    (hf : resolveSortField dto = "relevance") (hq : hasTextQuery dto = true) :
    Stage.sortStage entries ∉ basePipeline dto ∧
    dataPipeline { dto with order := o } = dataPipeline { dto with order := o' } := by
  have hbase : ∀ x : Option String,
      basePipeline { dto with order := x } =
        [Stage.matchStage (buildSearchQuery dto), Stage.lookupCategory,
          Stage.addFieldsStage] := by
    intro x
    have hf' : resolveSortField { dto with order := x } = "relevance" := hf
    have hq' : hasTextQuery { dto with order := x } = true := hq
    simp only [basePipeline, hf', hq']
    simp
    rfl
  have hbase0 : basePipeline dto =
      [Stage.matchStage (buildSearchQuery dto), Stage.lookupCategory,
        Stage.addFieldsStage] := by
    simp only [basePipeline, hf, hq]
    simp
  constructor
  · rw [hbase0]
    simp
  · simp only [dataPipeline, hbase]

/-- Closed instance of `relevance_query_no_sort_stage`: the default sort
with query `"test"`, compared across ascending and descending order. -/
theorem relevance_query_no_sort_stage_witness :
    Stage.sortStage [SortEntry.textScore,
        SortEntry.field "isFeatured" SortDir.desc,
        SortEntry.field "createdAt" SortDir.desc]
      ∉ basePipeline { q := some "test" } ∧
    dataPipeline { ({ q := some "test" } : SearchProductsDto) with
        order := some "asc" } =
      dataPipeline { ({ q := some "test" } : SearchProductsDto) with
        order := some "desc" } :=
  relevance_query_no_sort_stage { q := some "test" }
    [SortEntry.textScore, SortEntry.field "isFeatured" SortDir.desc,
      SortEntry.field "createdAt" SortDir.desc]
    (some "asc") (some "desc") rfl rfl

/-- C4 counterexample: with the sort key absent (and no text query), the
pipeline's sort stage is the relevance fallback (featured first, then
newest first), not an ordering by `createdAt` alone as the claim states
for absent keys. -/
theorem absent_sort_key_counterexample :
    Stage.sortStage [SortEntry.field "createdAt" SortDir.desc]
        ∉ dataPipeline {} ∧
    Stage.sortStage [SortEntry.field "isFeatured" SortDir.desc,
        SortEntry.field "createdAt" SortDir.desc] ∈ dataPipeline {} := by
  decide

/-- C4 amended: only a present but unrecognized sort key falls back to
ordering by `createdAt` in the requested direction (descending when no
order is given); an absent sort key instead defaults to `relevance`. -/
theorem unrecognized_sort_defaults_createdAt
    (dto : SearchProductsDto)
    (h : resolveSortField dto ∉
      (["relevance", "price", "name", "createdAt", "quantity"] : List String)) :
    basePipeline dto =
      [Stage.matchStage (buildSearchQuery dto), Stage.lookupCategory,
        Stage.addFieldsStage,
        Stage.sortStage [SortEntry.field "createdAt"
          (dirOf (dto.order.getD "desc"))]] ∧
    (dto.order = none → dirOf (dto.order.getD "desc") = SortDir.desc) := by
  simp only [List.mem_cons, List.not_mem_nil, or_false, not_or] at h
  obtain ⟨h1, h2, h3, h4, h5⟩ := h
  constructor
  · simp [basePipeline, buildSortObj, h1, h2, h3, h4, h5]
  · intro ho
    simp [ho, dirOf]

/-- Closed instance of `unrecognized_sort_defaults_createdAt`: the
unrecognized key `"foo"`. -/
theorem unrecognized_sort_defaults_createdAt_witness :
    basePipeline { sortBy := some "foo" } =
      [Stage.matchStage (buildSearchQuery { sortBy := some "foo" }),
        Stage.lookupCategory, Stage.addFieldsStage,
        Stage.sortStage [SortEntry.field "createdAt"
          (dirOf ((none : Option String).getD "desc"))]] ∧
    ((none : Option String) = none →
      dirOf ((none : Option String).getD "desc") = SortDir.desc) :=
  unrecognized_sort_defaults_createdAt { sortBy := some "foo" } (by decide)

/-- Stable insertion grows a list by one element. -/
theorem length_insertSorted (le : α → α → Bool) (x : α) (l : List α) :
    (insertSorted le x l).length = l.length + 1 := by
  induction l with
  | nil => rfl
  | cons y ys ih =>
      simp only [insertSorted]
      split <;> simp [ih]

/-- Sorting preserves length. -/
theorem length_sortByLe (le : α → α → Bool) (l : List α) :
    (sortByLe le l).length = l.length := by
  induction l with
  | nil => rfl
  | cons y ys ih =>
      simp only [sortByLe, List.foldr_cons] at ih ⊢
      rw [length_insertSorted, ih, List.length_cons]

/-- Filtering the initial documents on the product predicate counts the
same products as filtering the collection itself. -/
theorem length_filter_initDocs (ds : List Product) (sq : SearchQuery) :
    ((initDocs ds).filter fun d => matchesQuery sq d.prod).length =
      (ds.filter fun x => matchesQuery sq x).length := by
  induction ds with
  | nil => rfl
  | cons p tl ih =>
      simp only [initDocs, List.map_cons, List.filter_cons] at ih ⊢
      cases h : matchesQuery sq p <;> simp [h, initDocs] at ih ⊢ <;> omega

/-- The number the count pipeline reports is the number of products
satisfying the match predicate: the lookup, derived-field and sort stages
preserve the document count. -/
theorem total_eq_matchCount (dto : SearchProductsDto) (ds : List Product)
    (cats : List Category) :
    (runStages cats (initDocs ds) (countPipeline dto)).length =
      (ds.filter fun x => matchesQuery (buildSearchQuery dto) x).length := by
  unfold countPipeline basePipeline
  by_cases hc : (decide (resolveSortField dto ≠ "relevance")
      || !(hasTextQuery dto)) = true
  · simp only [hc, if_true]
    simp [runStages, applyStage, length_sortByLe, length_filter_initDocs]
  · simp only [Bool.not_eq_true] at hc
    simp only [hc, Bool.false_eq_true, if_false]
    simp [runStages, applyStage, length_filter_initDocs]

/-- C6: the count query and the data query share one stage list — the
count pipeline is the shared list plus a single count stage, the data
pipeline is the shared list plus skip and limit — and consequently the
reported `total` ignores `page` and `limit` entirely and equals the
number of products matching the filter predicate. -/
theorem count_data_shared_pipeline
    (dto : SearchProductsDto) (ds : List Product) (cats : List Category)
    (p l p' l' : Option Nat) :
    countPipeline dto = basePipeline dto ++ [Stage.countStage] ∧
    dataPipeline dto = basePipeline dto ++
      [Stage.skipStage ((dto.page.getD 1 - 1) * dto.limit.getD 10),
        Stage.limitStage (dto.limit.getD 10)] ∧
    (searchProducts ds cats { dto with page := p, limit := l }).pagination.total =
      (searchProducts ds cats { dto with page := p', limit := l' }).pagination.total ∧
    (searchProducts ds cats dto).pagination.total =
      (ds.filter fun x => matchesQuery (buildSearchQuery dto) x).length := by
  refine ⟨rfl, rfl, rfl, ?_⟩
  exact total_eq_matchCount dto ds cats

/-- Candidate strings of the name lookup: the names of the first `limit`
active products whose name matches the query. -/
def nameCandidates (ds : List Product) (query : String) (limit : Nat) :
    List String :=
  ((ds.filter fun p => ciContains p.name query && p.isActive).take limit).map
    fun p => p.name

/-- Candidate strings of the brand lookup: the non-empty brands of the
first `limit` active products whose brand matches the query. -/
def brandCandidates (ds : List Product) (query : String) (limit : Nat) :
    List String :=
  ((ds.filter fun p =>
      (match p.brand with | some b => ciContains b query | none => false)
        && p.isActive).take limit).filterMap
    fun p =>
      match p.brand with
      | some b => if b = "" then none else some b
      | none => none

/-- Candidate strings of the tag lookup: all matching tags of the first
`limit` active products having some matching tag. -/
def tagCandidates (ds : List Product) (query : String) (limit : Nat) :
    List String :=
  ((ds.filter fun p =>
      (p.tags.any fun t => ciContains t query) && p.isActive).take limit).flatMap
    fun p => p.tags.filter fun t => ciContains t query

/-- Folding `addToSet` over a list deduplicates it in first-seen order,
relative to what the accumulator already contains. -/
theorem foldl_addToSet_eq (l acc : List String) :
    l.foldl addToSet acc =
      acc ++ distinctStrings (l.filter fun s => !(acc.contains s)) := by
  induction l generalizing acc with
  | nil => simp [distinctStrings]
  | cons x xs ih =>
      cases hx : acc.contains x with
      | true =>
          have hstep : addToSet acc x = acc := by
            unfold addToSet
            rw [hx]
            simp
          rw [List.foldl_cons, hstep, List.filter_cons, hx]
          simpa using ih acc
      | false =>
          have hstep : addToSet acc x = acc ++ [x] := by
            unfold addToSet
            rw [hx]
            simp
          have hfilter :
              (xs.filter fun s => !((acc ++ [x]).contains s)) =
                ((xs.filter fun s => !(acc.contains s)).filter
                  fun s => s != x) := by
            rw [List.filter_filter]
            apply List.filter_congr
            intro a _
            by_cases hax : a = x <;> simp [hax, Bool.and_comm]
          rw [List.foldl_cons, hstep, List.filter_cons, hx]
          simp only [Bool.not_false, if_pos]
          rw [ih, hfilter, distinctStrings]
          simp

/-- Folding `addToSet` from an empty set is first-seen deduplication. -/
theorem foldl_addToSet_nil (l : List String) :
    l.foldl addToSet [] = distinctStrings l := by
  simpa using foldl_addToSet_eq l []

/-- The brand accumulation loop of `getSearchSuggestions` adds exactly
the present, non-empty brands. -/
theorem foldl_brandAdd (l : List Product) (acc : List String) :
    l.foldl
        (fun acc p =>
          match p.brand with
          | some b => if b = "" then acc else addToSet acc b
          | none => acc) acc =
      (l.filterMap fun p =>
        match p.brand with
        | some b => if b = "" then none else some b
        | none => none).foldl addToSet acc := by
  induction l generalizing acc with
  | nil => rfl
  | cons x xs ih =>
      cases h : x.brand with
      | none => simp [List.filterMap_cons, h, ih]
      | some b =>
          by_cases hb : b = "" <;> simp [List.filterMap_cons, h, hb, ih]

/-- The inner tag loop adds exactly the matching tags of one product. -/
theorem foldl_tagAdd (query : String) (ts : List String) (acc : List String) :
    ts.foldl (fun a t => if ciContains t query then addToSet a t else a) acc =
      (ts.filter fun t => ciContains t query).foldl addToSet acc := by
  induction ts generalizing acc with
  | nil => rfl
  | cons t ts ih =>
      by_cases ht : ciContains t query = true <;>
        simp [List.filter_cons, ht, ih]

/-- Accumulating list-valued contributions per element is folding over the
flattened contributions. -/
theorem foldl_addToSet_flatMap (f : α → List String) (l : List α)
    (acc : List String) :
    l.foldl (fun acc p => (f p).foldl addToSet acc) acc =
      (l.flatMap f).foldl addToSet acc := by
  induction l generalizing acc with
  | nil => rfl
  | cons x xs ih =>
      rw [List.foldl_cons, List.flatMap_cons, List.foldl_append]
      exact ih _

/-- The outer tag accumulation loop adds the matching tags of the matched
products, in order. -/
theorem foldl_tagsAdd (query : String) (l : List Product) (acc : List String) :
    l.foldl
        (fun acc p =>
          p.tags.foldl
            (fun a t => if ciContains t query then addToSet a t else a) acc)
        acc =
      (l.flatMap fun p => p.tags.filter fun t => ciContains t query).foldl
        addToSet acc := by
  simp only [foldl_tagAdd]
  exact foldl_addToSet_flatMap (fun p => p.tags.filter fun t => ciContains t query) l acc

/-- C8: for a query of trimmed length ≥ 2, `getSearchSuggestions` equals
the first-seen-order deduplication (case-sensitive, on the literal stored
strings) of the name candidates, then brand candidates, then tag
candidates — each lookup individually capped at `limit` before the
deduplication — truncated to `limit` entries. -/
theorem getSearchSuggestions_spec (ds : List Product) (query : String)
    (limit : Nat) (h : 2 ≤ (strTrim query).length) :
    getSearchSuggestions ds query limit =
      (distinctStrings (nameCandidates ds query limit ++
        brandCandidates ds query limit ++ tagCandidates ds query limit)).take
        limit := by
  simp only [getSearchSuggestions]
  rw [if_neg (by omega)]
  rw [show
      ((ds.filter fun p => ciContains p.name query && p.isActive).take
          limit).foldl (fun acc p => addToSet acc p.name) [] =
        (nameCandidates ds query limit).foldl addToSet [] from
    (List.foldl_map (fun p : Product => p.name) addToSet _ _).symm]
  rw [foldl_brandAdd, foldl_tagsAdd, ← List.foldl_append, ← List.foldl_append]
  rw [foldl_addToSet_nil, ← List.append_assoc]
  rfl

/-- Closed instance of `getSearchSuggestions_spec`: the spec's
"Widget"/"widget" scenario with query `"widg"`. -/
theorem getSearchSuggestions_spec_witness :
    getSearchSuggestions [prodWidget, prodLowerWidget] "widg" 10 =
      (distinctStrings (nameCandidates [prodWidget, prodLowerWidget] "widg" 10 ++
        brandCandidates [prodWidget, prodLowerWidget] "widg" 10 ++
        tagCandidates [prodWidget, prodLowerWidget] "widg" 10)).take 10 :=
  getSearchSuggestions_spec [prodWidget, prodLowerWidget] "widg" 10 (by decide)

/-- Packing a valid codepoint and unpacking it is the identity. -/
theorem char_toNat_ofNat {n : Nat} (h : n.isValidChar) :
    (Char.ofNat n).toNat = n := by
  unfold Char.ofNat
  rw [dif_pos h]
  rfl

/-- Lower-casing after upper-casing is lower-casing: the two ASCII case
folds cancel. -/
theorem lowerChar_upperChar (c : Char) :
    lowerChar (upperChar c) = lowerChar c := by
  unfold lowerChar upperChar Char.toUpper Char.toLower
  by_cases h : c.toNat ≥ 97 ∧ c.toNat ≤ 122
  · rw [if_pos h]
    have hv : (c.toNat - 32).isValidChar := Or.inl (by omega)
    have ht : (Char.ofNat (c.toNat - 32)).toNat = c.toNat - 32 :=
      char_toNat_ofNat hv
    rw [ht, if_pos (by omega), if_neg (by omega)]
    have hn : c.toNat - 32 + 32 = c.toNat := by omega
    rw [hn, Char.ofNat_toNat]
  · rw [if_neg h]

/-- Upper-casing the pattern before a case-insensitive match changes
nothing. -/
theorem ciContains_strToUpper (hay pat : String) :
    ciContains hay (strToUpper pat) = ciContains hay pat := by
  unfold ciContains strToUpper
  have hmap : (pat.data.map upperChar).map lowerChar = pat.data.map lowerChar := by
    rw [List.map_map]
    exact List.map_congr_left fun a _ => lowerChar_upperChar a
  exact congrArg (listContainsSub (hay.data.map lowerChar)) hmap

/-- C10: two search inputs identical except for the letter case of their
`sku` filter build equal predicates and return equal results — the
upper-case fold the code applies to the `sku` query is semantically
redundant because the `$regex` match is case-insensitive anyway. -/
theorem sku_filter_case_fold
    (ds : List Product) (cats : List Category) (dto : SearchProductsDto)
    (s1 s2 : String) (hay pat : String) (x : Product)
    (h1 : dto.sku = some s1)
    (hcase : s1.data.map upperChar = s2.data.map upperChar) :
    ciContains hay (strToUpper pat) = ciContains hay pat ∧
    buildSearchQuery { dto with sku := some s2 } = buildSearchQuery dto ∧
    matchesQuery (buildSearchQuery { dto with sku := some s2 }) x
      = matchesQuery (buildSearchQuery dto) x ∧
    searchProducts ds cats { dto with sku := some s2 }
      = searchProducts ds cats dto := by
  have hlen : s1.data.length = s2.data.length := by
    simpa using congrArg List.length hcase
  have hempty : s1 = "" ↔ s2 = "" := by
    constructor <;> intro he
    · subst he
      have h0 : s2.data.length = 0 := by simpa using hlen.symm
      have h2 : s2.data = [] := List.eq_nil_of_length_eq_zero h0
      exact String.ext (h2.trans rfl)
    · subst he
      have h0 : s1.data.length = 0 := by simpa using hlen
      have h2 : s1.data = [] := List.eq_nil_of_length_eq_zero h0
      exact String.ext (h2.trans rfl)
  have hsku : (optTruthy (some s1)).map strToUpper
      = (optTruthy (some s2)).map strToUpper := by
    by_cases he : s1 = ""
    · have he2 : s2 = "" := hempty.mp he
      simp [optTruthy, he, he2]
    · have he2 : ¬ s2 = "" := fun c => he (hempty.mpr c)
      simp only [optTruthy, if_neg he, if_neg he2, Option.map_some]
      exact congrArg some (congrArg String.mk hcase)
  have hq : buildSearchQuery { dto with sku := some s2 } = buildSearchQuery dto := by
    have step1 : buildSearchQuery { dto with sku := some s2 } =
        { buildSearchQuery dto with
          sku := (optTruthy (some s2)).map strToUpper } := rfl
    have step2 : buildSearchQuery dto =
        { buildSearchQuery dto with
          sku := (optTruthy (some s1)).map strToUpper } := by
      rw [← h1]
      rfl
    rw [step1, ← hsku, ← step2]
  have hbase : basePipeline { dto with sku := some s2 } = basePipeline dto := by
    unfold basePipeline
    rw [hq]
    rfl
  have hcnt : countPipeline { dto with sku := some s2 } = countPipeline dto := by
    unfold countPipeline
    rw [hbase]
  have hdat : dataPipeline { dto with sku := some s2 } = dataPipeline dto := by
    unfold dataPipeline
    rw [hbase]
  refine ⟨ciContains_strToUpper hay pat, hq, congrArg (matchesQuery · x) hq, ?_⟩
  unfold searchProducts
  rw [hcnt, hdat]

/-- Closed instance of `sku_filter_case_fold`: the lower-case query
`"w1"` against the upper-case variant `"W1"`, evaluated on the sample
product. -/
theorem sku_filter_case_fold_witness :
    ciContains "AW1B" (strToUpper "w1") = ciContains "AW1B" "w1" ∧
    buildSearchQuery { ({ sku := some "w1" } : SearchProductsDto) with
        sku := some "W1" } = buildSearchQuery { sku := some "w1" } ∧
    matchesQuery (buildSearchQuery { ({ sku := some "w1" } : SearchProductsDto) with
        sku := some "W1" }) prodWidget
      = matchesQuery (buildSearchQuery { sku := some "w1" }) prodWidget ∧
    searchProducts [prodWidget, prodLowerWidget] []
        { ({ sku := some "w1" } : SearchProductsDto) with sku := some "W1" }
      = searchProducts [prodWidget, prodLowerWidget] [] { sku := some "w1" } :=
  sku_filter_case_fold [prodWidget, prodLowerWidget] []
    { sku := some "w1" } "w1" "W1" "AW1B" "w1" prodWidget rfl (by decide)
